import Mathlib

/-!
Verification of the `launchpad-dependency-injection` container.

We shallowly embed the two container implementations of the repository:

* `DI.resolve` / `DI.resolveDeps` model `Container.resolve` and
  `Container.createInstance` of `src/src/container/Container.ts`
  (constructor injection driven by `@inject` metadata);
* `DI.Ctx.resolve2` / `DI.Ctx.runGets` model `Container.resolve` and
  `Container.createInstance` of the ambient-context variant
  (`src/container/context.ts` plus the context-aware `Container`),
  where a class body fetches its dependencies with `get()` against the
  globally active container.

JavaScript `Map<symbol, _>` objects become association lists keyed by the
token's symbol (modelled as a `Nat` identity; `Symbol(desc).toString()`
is `"Symbol(desc)"`).  Object identity of freshly constructed instances is
modelled by a monotone allocation counter `nextInstId`: every `new ctor(...)`
yields an `Instance` carrying a fresh id, so value equality of instances
coincides with JavaScript reference equality.  Recursion in `resolve` is
bounded by explicit fuel; running out of fuel yields `none`, every behaviour
of the TypeScript code yields `some (result, state)`.
-/

deriving instance DecidableEq for Except

namespace DI

/-- A token: unique identity (`symbol`, from `Symbol(description)`) plus a
human-readable `description`.  Mirrors `Token<T>` in `container/types.ts`. -/
structure Token where
  symbol : Nat
  description : String
deriving DecidableEq, Repr

/-- `Symbol(desc).toString()` in JavaScript renders as `"Symbol(desc)"`:
the string rendering of a token's symbol depends only on its description. -/
def symbolToString (t : Token) : String :=
  "Symbol(" ++ t.description ++ ")"

/-- Lifecycle strategies, from `container/types.ts`. -/
inductive Lifecycle where
  | Singleton
  | Transient
deriving DecidableEq, Repr

/-- A constructed object.  `instId` is the allocation identity (reference
equality in JavaScript); `ctorId` records which constructor produced it;
`args` records the allocation identities of the constructor arguments. -/
structure Instance where
  ctorId : Nat
  instId : Nat
  args : List Nat
deriving DecidableEq, Repr

/-- A constructor function together with its decorator metadata, as consumed
by the container: `injectable` (`isInjectable`), `lifecycle?` (`getLifecycle`),
`injectTokens` (`getInjectTokens`, a possibly sparse array: `none` entries are
holes left by a missing `@inject`), and `throwsWith` (`some m` when the
constructor body itself throws an `Error` with message `m`). -/
structure Ctor where
  ctorId : Nat
  name : String
  injectable : Bool
  lifecycle? : Option Lifecycle
  injectTokens : List (Option Token)
  throwsWith : Option String
deriving DecidableEq, Repr

/-- The error taxonomy of `container/errors.ts` and `container/context.ts`,
carrying the constructor arguments of the corresponding `Error` subclasses. -/
inductive ContainerError where
  | dependencyNotFound (token : Token)
  | circularDependency (chain : List Token)
  | invalidConstructor (token : Token) (message : String)
  | notInjectable (className : String)
  | noActiveContainer
deriving DecidableEq, Repr

/-- Message of `DependencyNotFoundError`. -/
def dependencyNotFoundMessage (t : Token) : String :=
  "Dependency not found: " ++ t.description ++ " (" ++ symbolToString t ++ ")"

/-- Message of `CircularDependencyError`. -/
def circularDependencyMessage (chain : List Token) : String :=
  "Circular dependency detected: " ++ String.intercalate " -> " (chain.map Token.description)

/-- Message of `InvalidConstructorError`. -/
def invalidConstructorMessage (t : Token) (message : String) : String :=
  "Invalid constructor for " ++ t.description ++ ": " ++ message

/-- Message of `NotInjectableError`. -/
def notInjectableMessage (className : String) : String :=
  "Class " ++ className ++ " is not marked as injectable. Use @injectable(), @singleton(), or @transient() decorator."

/-- Message of `NoActiveContainerError`. -/
def noActiveContainerMessage : String :=
  "No active container. Call setContainer() before using get(), or ensure resolve() has been called."

/-- The `message` property of the thrown error object. -/
def errMessage : ContainerError → String
  | .dependencyNotFound t => dependencyNotFoundMessage t
  | .circularDependency chain => circularDependencyMessage chain
  | .invalidConstructor t m => invalidConstructorMessage t m
  | .notInjectable n => notInjectableMessage n
  | .noActiveContainer => noActiveContainerMessage

/-- `Map.set`: insert or replace the entry for key `k`. -/
def mset {α : Type} (m : List (Nat × α)) (k : Nat) (v : α) : List (Nat × α) :=
  (k, v) :: m.filter (fun p => p.1 ≠ k)

/-- `Map.get` after `Map.set` at the same key. -/
theorem mset_lookup_self {α : Type} (m : List (Nat × α)) (k : Nat) (v : α) :
    (mset m k v).lookup k = some v := by
  simp [mset, List.lookup]

theorem filter_lookup_ne {α : Type} (m : List (Nat × α)) (k k' : Nat)
    (h : k' ≠ k) : (m.filter (fun p => p.1 ≠ k)).lookup k' = m.lookup k' := by
  induction m with
  | nil => rfl
  | cons p rest ih =>
    by_cases hp : p.1 = k
    · rw [List.filter_cons_of_neg (by simp [hp]), ih]
      have hk' : (k' == p.1) = false := by simp [hp, h]
      simp [List.lookup, hk']
    · rw [List.filter_cons_of_pos (by simp [hp])]
      by_cases hkp : k' = p.1
      · simp [List.lookup, hkp]
      · have h1 : (k' == p.1) = false := by simp [hkp]
        simp only [List.lookup, h1]
        exact ih

/-- `Map.get` after `Map.set` at a different key. -/
theorem mset_lookup_ne {α : Type} (m : List (Nat × α)) (k k' : Nat) (v : α)
    (h : k' ≠ k) : (mset m k v).lookup k' = m.lookup k' := by
  have h2 : (k' == k) = false := by simp [h]
  simp only [mset, List.lookup, h2]
  exact filter_lookup_ne m k k' h

/-- A registry entry, from `container/types.ts`. -/
structure Binding where
  implementation : Ctor
  lifecycle : Lifecycle
  token : Token
deriving DecidableEq, Repr

/-- The private state of a `Container` of `src/src/container/Container.ts`:
`bindings`, `singletons`, `resolutionStack` and `typeToTokenMap`, plus the
allocation counter `nextInstId` that models the JavaScript heap. -/
structure ContainerState where
  bindings : List (Nat × Binding)
  singletons : List (Nat × Instance)
  resolutionStack : List Token
  typeToTokenMap : List (Nat × Token)
  nextInstId : Nat
deriving DecidableEq, Repr

/-- A freshly constructed `new Container()`. -/
def emptyState : ContainerState :=
  { bindings := [], singletons := [], resolutionStack := [],
    typeToTokenMap := [], nextInstId := 0 }

/-- `Container.register`.  The `typeof implementation !== 'function'` guard of
the source cannot fire in the typed model (every `Ctor` is a function value);
the `isInjectable` guard and the `getLifecycle(impl) || Lifecycle.Transient`
default are modelled directly. -/
def register (st : ContainerState) (token : Token) (implementation : Ctor) :
    Except ContainerError ContainerState :=
  if !implementation.injectable then
    .error (.notInjectable implementation.name)
  else
    let lifecycle := implementation.lifecycle?.getD Lifecycle.Transient
    .ok { st with
          bindings := mset st.bindings token.symbol
            { implementation := implementation, lifecycle := lifecycle, token := token },
          typeToTokenMap := mset st.typeToTokenMap implementation.ctorId token }

/-- `Container.isRegistered`. -/
def isRegistered (st : ContainerState) (token : Token) : Bool :=
  (st.bindings.lookup token.symbol).isSome

/-- `Container.clear`: drops singleton instances and the in-flight path. -/
def clear (st : ContainerState) : ContainerState :=
  { st with singletons := [], resolutionStack := [] }

/-- `Container.reset`: full teardown. -/
def reset (st : ContainerState) : ContainerState :=
  { st with bindings := [], singletons := [], resolutionStack := [],
            typeToTokenMap := [] }

/-- The cached-singleton lookup of `Container.resolve`: `some i` exactly when
the binding's lifecycle is Singleton and the cache holds `i` for the token. -/
def cachedLookup (binding : Binding) (st : ContainerState) (token : Token) :
    Option Instance :=
  if binding.lifecycle = Lifecycle.Singleton then
    st.singletons.lookup token.symbol
  else
    none

/-- `this.resolutionStack.push(token)`. -/
def pushStack (st : ContainerState) (token : Token) : ContainerState :=
  { st with resolutionStack := st.resolutionStack ++ [token] }

/-- The `finally { this.resolutionStack.pop() }` of `Container.resolve`. -/
def popStack (st : ContainerState) : ContainerState :=
  { st with resolutionStack := st.resolutionStack.dropLast }

/-- The singleton-caching step of `Container.resolve`. -/
def cacheIfSingleton (binding : Binding) (token : Token) (inst : Instance)
    (st : ContainerState) : ContainerState :=
  if binding.lifecycle = Lifecycle.Singleton then
    { st with singletons := mset st.singletons token.symbol inst }
  else
    st

/-- `new ctor(args)`: the freshly allocated instance (JavaScript object
identity modelled by the current `nextInstId`). -/
def newInstance (c : Ctor) (args : List Instance) (st : ContainerState) : Instance :=
  ⟨c.ctorId, st.nextInstId, args.map Instance.instId⟩

/-- The heap effect of an allocation. -/
def bumpHeap (st : ContainerState) : ContainerState :=
  { st with nextInstId := st.nextInstId + 1 }

mutual

/-- `Container.resolve` of `src/src/container/Container.ts`, with the body of
`Container.createInstance` inlined after the stack push.  Fuel bounds the
recursion depth; `none` means the fuel ran out, `some (out, st')` is the
source behaviour (thrown error or returned instance, plus the mutated
container state). -/
def resolve : Nat → ContainerState → Token →
    Option (Except ContainerError Instance × ContainerState)
  | 0, _, _ => none
  | fuel + 1, st, token =>
    match st.bindings.lookup token.symbol with
    | none => some (.error (.dependencyNotFound token), st)
    | some binding =>
      if st.resolutionStack.any (fun t => t.symbol == token.symbol) then
        some (.error (.circularDependency (st.resolutionStack ++ [token])), st)
      else
        match cachedLookup binding st token with
        | some inst => some (.ok inst, st)
        | none =>
          let st1 := pushStack st token
          let c := binding.implementation
          if c.injectTokens.isEmpty then
            match c.throwsWith with
            | some m =>
              some (.error (.invalidConstructor token
                ("Failed to instantiate (no dependencies declared with @inject): " ++ m)),
                popStack st1)
            | none =>
              some (.ok (newInstance c [] st1),
                popStack (cacheIfSingleton binding token (newInstance c [] st1) (bumpHeap st1)))
          else
            match resolveDeps fuel st1 token c.injectTokens with
            | none => none
            | some (.error e, st2) => some (.error e, popStack st2)
            | some (.ok deps, st2) =>
              match c.throwsWith with
              | some m =>
                some (.error (.invalidConstructor token ("Failed to instantiate: " ++ m)),
                  popStack st2)
              | none =>
                some (.ok (newInstance c deps st2),
                  popStack (cacheIfSingleton binding token (newInstance c deps st2) (bumpHeap st2)))

/-- The `injectTokens.map((depToken) => ...)` loop of
`Container.createInstance`: a sparse slot (`none`) raises
`InvalidConstructor`, an unregistered dependency raises `DependencyNotFound`,
otherwise the dependency is recursively resolved; results are collected in
declaration order. -/
def resolveDeps : Nat → ContainerState → Token → List (Option Token) →
    Option (Except ContainerError (List Instance) × ContainerState)
  | _, st, _, [] => some (.ok [], st)
  | 0, _, _, _ :: _ => none
  | fuel + 1, st, token, depToken? :: rest =>
    match depToken? with
    | none =>
      some (.error (.invalidConstructor token
        "Missing @inject decorator for constructor parameter"), st)
    | some depToken =>
      if (st.bindings.lookup depToken.symbol).isNone then
        some (.error (.dependencyNotFound depToken), st)
      else
        match resolve fuel st depToken with
        | none => none
        | some (.error e, st') => some (.error e, st')
        | some (.ok inst, st') =>
          match resolveDeps fuel st' token rest with
          | none => none
          | some (.error e, st'') => some (.error e, st'')
          | some (.ok insts, st'') => some (.ok (inst :: insts), st'')

end

/-- The state components any `resolve` call leaves intact: the registry and
the type map are untouched, the in-flight path is restored, the heap counter
only grows, and no cache entry keyed by a Transient-bound symbol changes. -/
def StateInv (st st' : ContainerState) : Prop :=
  st'.bindings = st.bindings ∧
  st'.typeToTokenMap = st.typeToTokenMap ∧
  st'.resolutionStack = st.resolutionStack ∧
  st.nextInstId ≤ st'.nextInstId ∧
  ∀ sym b, st.bindings.lookup sym = some b → b.lifecycle = Lifecycle.Transient →
    st'.singletons.lookup sym = st.singletons.lookup sym

theorem stateInv_refl (st : ContainerState) : StateInv st st :=
  ⟨rfl, rfl, rfl, le_refl _, fun _ _ _ _ => rfl⟩

theorem stateInv_trans {a b c : ContainerState}
    (h1 : StateInv a b) (h2 : StateInv b c) : StateInv a c := by
  obtain ⟨e1, e2, e3, le1, s1⟩ := h1
  obtain ⟨f1, f2, f3, le2, s2⟩ := h2
  refine ⟨f1.trans e1, f2.trans e2, f3.trans e3, le1.trans le2, fun sym bd hb ht => ?_⟩
  rw [s2 sym bd (by rw [e1]; exact hb) ht, s1 sym bd hb ht]

theorem stateInv_pushPop (st : ContainerState) (t : Token) :
    StateInv st (popStack (pushStack st t)) := by
  refine ⟨rfl, rfl, ?_, le_refl _, fun _ _ _ _ => rfl⟩
  simp [popStack, pushStack]

theorem dropLast_append_single {α : Type} (l : List α) (a : α) :
    (l ++ [a]).dropLast = l := by
  simp

theorem stateInv_main : ∀ fuel : Nat,
    (∀ st t out st', resolve fuel st t = some (out, st') → StateInv st st') ∧
    (∀ st t deps out st', resolveDeps fuel st t deps = some (out, st') → StateInv st st') := by
  intro fuel
  induction fuel with
  | zero =>
    constructor
    · intro st t out st' h
      simp [resolve] at h
    · intro st t deps out st' h
      match deps with
      | [] =>
        simp only [resolveDeps, Option.some.injEq, Prod.mk.injEq] at h
        obtain ⟨-, rfl⟩ := h
        exact stateInv_refl st
      | d :: rest =>
        simp [resolveDeps] at h
  | succ fuel ih =>
    obtain ⟨ihr, ihd⟩ := ih
    constructor
    · intro st t out st' h
      simp only [resolve] at h
      split at h
      · simp only [Option.some.injEq, Prod.mk.injEq] at h
        obtain ⟨-, rfl⟩ := h
        exact stateInv_refl st
      case h_2 binding hbind =>
        split at h
        · simp only [Option.some.injEq, Prod.mk.injEq] at h
          obtain ⟨-, rfl⟩ := h
          exact stateInv_refl st
        · split at h
          · simp only [Option.some.injEq, Prod.mk.injEq] at h
            obtain ⟨-, rfl⟩ := h
            exact stateInv_refl st
          case h_2 hcache =>
            split at h
            · -- no declared dependencies
              split at h
              · simp only [Option.some.injEq, Prod.mk.injEq] at h
                obtain ⟨-, rfl⟩ := h
                exact stateInv_pushPop st t
              · simp only [Option.some.injEq, Prod.mk.injEq] at h
                obtain ⟨-, rfl⟩ := h
                refine ⟨?_, ?_, ?_, ?_, ?_⟩
                · simp [popStack, cacheIfSingleton, bumpHeap, pushStack]
                  split <;> rfl
                · simp [popStack, cacheIfSingleton, bumpHeap, pushStack]
                  split <;> rfl
                · simp [popStack, cacheIfSingleton, bumpHeap, pushStack]
                  split <;> simp
                · simp [popStack, cacheIfSingleton, bumpHeap, pushStack]
                  split <;> simp
                · intro sym b hb ht
                  simp only [popStack, cacheIfSingleton, bumpHeap, pushStack]
                  split
                  case isTrue hsing =>
                    have hne : sym ≠ t.symbol := by
                      intro hEq
                      rw [hEq, hbind] at hb
                      cases hb
                      rw [hsing] at ht
                      cases ht
                    simp only []
                    exact mset_lookup_ne _ _ _ _ hne
                  · rfl
            · -- declared dependencies
              split at h
              · cases h
              case h_2 e st2 hdeps =>
                simp only [Option.some.injEq, Prod.mk.injEq] at h
                obtain ⟨-, rfl⟩ := h
                have hinv := ihd _ _ _ _ _ hdeps
                obtain ⟨e1, e2, e3, le1, s1⟩ := hinv
                refine ⟨e1, e2, ?_, le1, ?_⟩
                · simp only [popStack, e3, pushStack]
                  exact dropLast_append_single _ _
                · intro sym b hb ht
                  simpa [popStack] using s1 sym b (by simpa [pushStack] using hb) ht
              case h_3 deps st2 hdeps =>
                have hinv := ihd _ _ _ _ _ hdeps
                obtain ⟨e1, e2, e3, le1, s1⟩ := hinv
                split at h
                · simp only [Option.some.injEq, Prod.mk.injEq] at h
                  obtain ⟨-, rfl⟩ := h
                  refine ⟨e1, e2, ?_, le1, ?_⟩
                  · simp only [popStack, e3, pushStack]
                    exact dropLast_append_single _ _
                  · intro sym b hb ht
                    simpa [popStack] using s1 sym b (by simpa [pushStack] using hb) ht
                · simp only [Option.some.injEq, Prod.mk.injEq] at h
                  obtain ⟨-, rfl⟩ := h
                  refine ⟨?_, ?_, ?_, ?_, ?_⟩
                  · simp only [popStack, cacheIfSingleton, bumpHeap]
                    split <;> simpa using e1
                  · simp only [popStack, cacheIfSingleton, bumpHeap]
                    split <;> simpa using e2
                  · simp only [popStack, cacheIfSingleton, bumpHeap]
                    split <;> (simp only []; rw [e3]; simp [pushStack])
                  · have : st.nextInstId ≤ st2.nextInstId := by
                      simpa [pushStack] using le1
                    simp only [popStack, cacheIfSingleton, bumpHeap]
                    split <;> simp <;> omega
                  · intro sym b hb ht
                    have hbase : st2.singletons.lookup sym = st.singletons.lookup sym := by
                      simpa [pushStack] using s1 sym b (by simpa [pushStack] using hb) ht
                    simp only [popStack, cacheIfSingleton, bumpHeap]
                    split
                    case isTrue hsing =>
                      have hne : sym ≠ t.symbol := by
                        intro hEq
                        rw [hEq, hbind] at hb
                        cases hb
                        rw [hsing] at ht
                        cases ht
                      simp only []
                      rw [mset_lookup_ne _ _ _ _ hne]
                      exact hbase
                    · exact hbase
    · intro st t deps out st' h
      match deps with
      | [] =>
        simp only [resolveDeps, Option.some.injEq, Prod.mk.injEq] at h
        obtain ⟨-, rfl⟩ := h
        exact stateInv_refl st
      | none :: rest =>
        simp only [resolveDeps, Option.some.injEq, Prod.mk.injEq] at h
        obtain ⟨-, rfl⟩ := h
        exact stateInv_refl st
      | some d :: rest =>
        simp only [resolveDeps] at h
        split at h
        · simp only [Option.some.injEq, Prod.mk.injEq] at h
          obtain ⟨-, rfl⟩ := h
          exact stateInv_refl st
        · split at h
          · cases h
          case h_2 e stm hres =>
            simp only [Option.some.injEq, Prod.mk.injEq] at h
            obtain ⟨-, rfl⟩ := h
            exact ihr _ _ _ _ hres
          case h_3 inst stm hres =>
            split at h
            · cases h
            case h_2 e stn hrest =>
              simp only [Option.some.injEq, Prod.mk.injEq] at h
              obtain ⟨-, rfl⟩ := h
              exact stateInv_trans (ihr _ _ _ _ hres) (ihd _ _ _ _ _ hrest)
            case h_3 insts stn hrest =>
              simp only [Option.some.injEq, Prod.mk.injEq] at h
              obtain ⟨-, rfl⟩ := h
              exact stateInv_trans (ihr _ _ _ _ hres) (ihd _ _ _ _ _ hrest)

theorem resolve_stateInv {fuel : Nat} {st : ContainerState} {t : Token}
    {out : Except ContainerError Instance} {st' : ContainerState}
    (h : resolve fuel st t = some (out, st')) : StateInv st st' :=
  (stateInv_main fuel).1 st t out st' h

theorem resolve_stack_eq {fuel : Nat} {st : ContainerState} {t : Token}
    {out : Except ContainerError Instance} {st' : ContainerState}
    (h : resolve fuel st t = some (out, st')) :
    st'.resolutionStack = st.resolutionStack :=
  (resolve_stateInv h).2.2.1

theorem resolve_bindings_eq {fuel : Nat} {st : ContainerState} {t : Token}
    {out : Except ContainerError Instance} {st' : ContainerState}
    (h : resolve fuel st t = some (out, st')) : st'.bindings = st.bindings :=
  (resolve_stateInv h).1

/-- Every instance cached so far was allocated before the current heap
counter.  Holds for `emptyState` and is all that is needed to bound the
identity of an instance returned from the cache. -/
def CacheBounded (st : ContainerState) : Prop :=
  ∀ sym i, st.singletons.lookup sym = some i → i.instId < st.nextInstId

/-- Inversion of a successful `resolve` call: either the binding is Singleton
and the instance came straight from the cache (state untouched), or the
instance was freshly constructed by the binding's implementation, with an
allocation identity at the then-current heap counter; a Singleton result is
cached under the token's symbol. -/
theorem resolve_ok_inv {fuel : Nat} {st : ContainerState} {t : Token}
    {i : Instance} {st' : ContainerState}
    (h : resolve fuel st t = some (.ok i, st')) :
    ∃ b, st.bindings.lookup t.symbol = some b ∧
      ((cachedLookup b st t = some i ∧ st' = st) ∨
       (cachedLookup b st t = none ∧ i.ctorId = b.implementation.ctorId ∧
        st.nextInstId ≤ i.instId ∧ st'.nextInstId = i.instId + 1 ∧
        (b.lifecycle = Lifecycle.Singleton → st'.singletons.lookup t.symbol = some i))) := by
  match fuel with
  | 0 => simp [resolve] at h
  | fuel + 1 =>
    simp only [resolve] at h
    split at h
    · simp at h
    case h_2 binding hbind =>
      refine ⟨binding, hbind, ?_⟩
      split at h
      · simp at h
      · split at h
        case h_1 inst hcache =>
          simp only [Option.some.injEq, Prod.mk.injEq, Except.ok.injEq] at h
          obtain ⟨rfl, rfl⟩ := h
          exact .inl ⟨hcache, rfl⟩
        case h_2 hcache =>
          refine .inr ⟨hcache, ?_⟩
          split at h
          · split at h
            · simp at h
            · simp only [Option.some.injEq, Prod.mk.injEq, Except.ok.injEq] at h
              obtain ⟨rfl, rfl⟩ := h
              refine ⟨rfl, le_refl _, ?_, ?_⟩
              · simp [popStack, cacheIfSingleton, bumpHeap, newInstance, pushStack]
                split <;> simp
              · intro hsing
                simp [popStack, cacheIfSingleton, bumpHeap, newInstance, pushStack, hsing]
                rw [mset_lookup_self]
          · split at h
            · cases h
            · simp at h
            case h_3 deps st2 hdeps =>
              have hinv := (stateInv_main fuel).2 _ _ _ _ _ hdeps
              split at h
              · simp at h
              · simp only [Option.some.injEq, Prod.mk.injEq, Except.ok.injEq] at h
                obtain ⟨rfl, rfl⟩ := h
                refine ⟨rfl, ?_, ?_, ?_⟩
                · have : st.nextInstId ≤ st2.nextInstId := by
                    simpa [pushStack] using hinv.2.2.2.1
                  simpa [newInstance] using this
                · simp [popStack, cacheIfSingleton, bumpHeap, newInstance]
                  split <;> simp
                · intro hsing
                  simp [popStack, cacheIfSingleton, bumpHeap, newInstance, hsing]
                  rw [mset_lookup_self]

/-- A `resolve` call that finds an empty cache slot for a Singleton token, or
a Transient binding, returns a freshly constructed instance. -/
theorem resolve_ok_fresh {fuel : Nat} {st : ContainerState} {t : Token}
    {i : Instance} {st' : ContainerState} {b : Binding}
    (hb : st.bindings.lookup t.symbol = some b)
    (hnc : cachedLookup b st t = none)
    (h : resolve fuel st t = some (.ok i, st')) :
    i.ctorId = b.implementation.ctorId ∧ st.nextInstId ≤ i.instId ∧
      st'.nextInstId = i.instId + 1 ∧
      (b.lifecycle = Lifecycle.Singleton → st'.singletons.lookup t.symbol = some i) := by
  obtain ⟨b', hb', hcases⟩ := resolve_ok_inv h
  rw [hb] at hb'
  injection hb' with hb'
  subst hb'
  rcases hcases with ⟨hc, -⟩ | ⟨-, hrest⟩
  · rw [hnc] at hc
    cases hc
  · exact hrest

/-- A successful `resolve` of a Singleton-bound token whose cache already
holds `j` returns exactly `j` and leaves the state untouched. -/
theorem resolve_ok_cached {fuel : Nat} {st : ContainerState} {t : Token}
    {i j : Instance} {st' : ContainerState} {b : Binding}
    (hb : st.bindings.lookup t.symbol = some b)
    (hsing : b.lifecycle = Lifecycle.Singleton)
    (hj : st.singletons.lookup t.symbol = some j)
    (h : resolve fuel st t = some (.ok i, st')) : i = j ∧ st' = st := by
  obtain ⟨b', hb', hcases⟩ := resolve_ok_inv h
  rw [hb] at hb'
  injection hb' with hb'
  subst hb'
  have hcl : cachedLookup b st t = some j := by
    unfold cachedLookup
    rw [if_pos hsing, hj]
  rcases hcases with ⟨hc, hst⟩ | ⟨hc, -⟩
  · rw [hcl] at hc
    injection hc with hc
    exact ⟨hc.symm, hst⟩
  · rw [hcl] at hc
    cases hc

/-- Bound on the identity of any successfully resolved instance, given a
well-formed cache. -/
theorem resolve_ok_instId_lt {fuel : Nat} {st : ContainerState} {t : Token}
    {i : Instance} {st' : ContainerState}
    (hcb : CacheBounded st)
    (h : resolve fuel st t = some (.ok i, st')) : i.instId < st'.nextInstId := by
  obtain ⟨b, hb, hcases⟩ := resolve_ok_inv h
  rcases hcases with ⟨hc, rfl⟩ | ⟨-, -, -, hn, -⟩
  · unfold cachedLookup at hc
    split at hc
    · exact hcb _ _ hc
    · cases hc
  · omega

/-- `cachedLookup` is empty whenever the cache slot is. -/
theorem cachedLookup_none {st : ContainerState} {t : Token} (b : Binding)
    (h : st.singletons.lookup t.symbol = none) : cachedLookup b st t = none := by
  unfold cachedLookup
  split <;> simp [h]

namespace Ctx

/-- A constructor in the ambient-context variant: its body fetches each token
in `gets`, in order, via `get()` (i.e. `getContainer().resolve(token)`), then
either throws (`throwsWith`) or completes.  Mirrors the Koin-style classes the
context-aware container instantiates with `new ctor()`. -/
structure Ctor2 where
  ctorId : Nat
  name : String
  injectable : Bool
  lifecycle? : Option Lifecycle
  gets : List Token
  throwsWith : Option String
deriving DecidableEq, Repr

/-- A registry entry of the ambient-context container. -/
structure Binding2 where
  implementation : Ctor2
  lifecycle : Lifecycle
  token : Token
deriving DecidableEq, Repr

/-- Per-container private state of the context-aware `Container`. -/
structure CState where
  bindings : List (Nat × Binding2)
  singletons : List (Nat × Instance)
  resolutionStack : List Token
deriving DecidableEq, Repr

/-- The world of the ambient-context variant: every container's state
(total over container ids, unused ids hold empty containers), the module-level
`activeContainer` of `container/context.ts` (`none` = `null`), and the
allocation counter modelling the heap. -/
structure World where
  containers : Nat → CState
  active : Option Nat
  nextInstId : Nat

/-- Replace container `cid`'s state. -/
def updateC (w : World) (cid : Nat) (f : CState → CState) : World :=
  { w with containers := fun c => if c = cid then f (w.containers c) else w.containers c }

/-- The heap effect of `new ctor()` in the ambient-context world. -/
def bumpHeap2 (w : World) : World :=
  { w with nextInstId := w.nextInstId + 1 }

/-- The singleton-caching step of the context-aware `Container.resolve`. -/
def cacheIfSingleton2 (binding : Binding2) (cid : Nat) (token : Token)
    (inst : Instance) (w : World) : World :=
  if binding.lifecycle = Lifecycle.Singleton then
    updateC w cid (fun cs => { cs with singletons := mset cs.singletons token.symbol inst })
  else w

/-- The `finally` block of the context-aware `Container.resolve`: pop the
in-flight path of container `cid` and, only when a previously active container
existed, restore it via `setContainer`. -/
def restore (w : World) (cid : Nat) (prev : Option Nat) : World :=
  let w' := updateC w cid (fun cs => { cs with resolutionStack := cs.resolutionStack.dropLast })
  match prev with
  | some p => { w' with active := some p }
  | none => w'

mutual

/-- `Container.resolve` of the ambient-context variant (`Container.ts` of the
context-based revision): identical lookup / cycle / cache steps, then it saves
the previously active container (`null` when `getContainer()` throws), installs
itself with `setContainer(this)`, pushes the token, runs `new ctor()` (whose
body issues `get()` calls), wraps a constructor throw in `InvalidConstructor`,
caches singletons, and in `finally` pops the path and restores the previous
container only if one existed. -/
def resolve2 : Nat → World → Nat → Token →
    Option (Except ContainerError Instance × World)
  | 0, _, _, _ => none
  | fuel + 1, w, cid, token =>
    let cs := w.containers cid
    match cs.bindings.lookup token.symbol with
    | none => some (.error (.dependencyNotFound token), w)
    | some binding =>
      if cs.resolutionStack.any (fun t => t.symbol == token.symbol) then
        some (.error (.circularDependency (cs.resolutionStack ++ [token])), w)
      else if binding.lifecycle = Lifecycle.Singleton
          ∧ (cs.singletons.lookup token.symbol).isSome then
        some (.ok ((cs.singletons.lookup token.symbol).getD ⟨0, 0, []⟩), w)
      else
        let prev := w.active
        let w1 := { w with active := some cid }
        let w2 := updateC w1 cid
          (fun cs => { cs with resolutionStack := cs.resolutionStack ++ [token] })
        let c := binding.implementation
        match runGets fuel w2 c.gets with
        | none => none
        | some (.error e, w3) =>
          some (.error (.invalidConstructor token ("Failed to instantiate: " ++ errMessage e)),
            restore w3 cid prev)
        | some (.ok fetched, w3) =>
          match c.throwsWith with
          | some m =>
            some (.error (.invalidConstructor token ("Failed to instantiate: " ++ m)),
              restore w3 cid prev)
          | none =>
            let inst : Instance := ⟨c.ctorId, w3.nextInstId, fetched.map Instance.instId⟩
            some (.ok inst,
              restore (cacheIfSingleton2 binding cid token inst (bumpHeap2 w3)) cid prev)

/-- The sequence of `get(token)` calls a constructor body performs: each one
reads the active container (`NoActiveContext` if none) and resolves the token
on it.  An error thrown by a `get` propagates out of the constructor. -/
def runGets : Nat → World → List Token →
    Option (Except ContainerError (List Instance) × World)
  | _, w, [] => some (.ok [], w)
  | 0, _, _ :: _ => none
  | fuel + 1, w, token :: rest =>
    match w.active with
    | none => some (.error .noActiveContainer, w)
    | some a =>
      match resolve2 fuel w a token with
      | none => none
      | some (.error e, w') => some (.error e, w')
      | some (.ok inst, w') =>
        match runGets fuel w' rest with
        | none => none
        | some (.error e, w'') => some (.error e, w'')
        | some (.ok insts, w'') => some (.ok (inst :: insts), w'')

end

/-- Restoring with a saved previous container makes it active again. -/
theorem restore_active_some (w : World) (cid : Nat) (p : Nat) :
    (restore w cid (some p)).active = some p := rfl

/-- The ambient swap discipline, success or failure: a `resolve` call on any
container, entered while container `s` was active, leaves `s` active again.
Non-construction paths never touch the ambient pointer; the construction path
saves it (it is not `null`) and the `finally` block restores it. -/
theorem resolve2_active {fuel : Nat} {w : World} {cid : Nat} {t : Token}
    {out : Except ContainerError Instance} {w' : World} {s : Nat}
    (h : resolve2 fuel w cid t = some (out, w')) (hs : w.active = some s) :
    w'.active = some s := by
  match fuel with
  | 0 => simp [resolve2] at h
  | fuel + 1 =>
    simp only [resolve2] at h
    split at h
    · simp only [Option.some.injEq, Prod.mk.injEq] at h
      obtain ⟨-, rfl⟩ := h
      exact hs
    · split at h
      · simp only [Option.some.injEq, Prod.mk.injEq] at h
        obtain ⟨-, rfl⟩ := h
        exact hs
      · split at h
        · simp only [Option.some.injEq, Prod.mk.injEq] at h
          obtain ⟨-, rfl⟩ := h
          exact hs
        · rw [hs] at h
          split at h
          · cases h
          · simp only [Option.some.injEq, Prod.mk.injEq] at h
            obtain ⟨-, rfl⟩ := h
            exact restore_active_some _ _ _
          · split at h
            · simp only [Option.some.injEq, Prod.mk.injEq] at h
              obtain ⟨-, rfl⟩ := h
              exact restore_active_some _ _ _
            · simp only [Option.some.injEq, Prod.mk.injEq] at h
              obtain ⟨-, rfl⟩ := h
              exact restore_active_some _ _ _

/-- Constructor bodies (`get()` sequences) also leave a non-`null` ambient
pointer unchanged. -/
theorem runGets_active : ∀ (fuel : Nat) (w : World) (l : List Token)
    (out : Except ContainerError (List Instance)) (w' : World),
    runGets fuel w l = some (out, w') → ∀ s : Nat, w.active = some s → w'.active = some s := by
  intro fuel
  induction fuel with
  | zero =>
    intro w l out w' h s hs
    match l with
    | [] =>
      simp only [runGets, Option.some.injEq, Prod.mk.injEq] at h
      obtain ⟨-, rfl⟩ := h
      exact hs
    | _ :: _ => simp [runGets] at h
  | succ fuel ih =>
    intro w l out w' h s hs
    match l with
    | [] =>
      simp only [runGets, Option.some.injEq, Prod.mk.injEq] at h
      obtain ⟨-, rfl⟩ := h
      exact hs
    | t :: rest =>
      simp only [runGets] at h
      split at h
      · simp only [Option.some.injEq, Prod.mk.injEq] at h
        obtain ⟨-, rfl⟩ := h
        exact hs
      case h_2 a ha =>
        have has : a = s := by rw [ha] at hs; injection hs
        subst has
        split at h
        · cases h
        case h_2 e wm hres =>
          simp only [Option.some.injEq, Prod.mk.injEq] at h
          obtain ⟨-, rfl⟩ := h
          exact resolve2_active hres hs
        case h_3 inst wm hres =>
          have hm : wm.active = some a := resolve2_active hres hs
          split at h
          · cases h
          case h_2 e wn hrest =>
            simp only [Option.some.injEq, Prod.mk.injEq] at h
            obtain ⟨-, rfl⟩ := h
            exact ih _ _ _ _ hrest a hm
          case h_3 insts wn hrest =>
            simp only [Option.some.injEq, Prod.mk.injEq] at h
            obtain ⟨-, rfl⟩ := h
            exact ih _ _ _ _ hrest a hm

/-- The stack effect of the `finally` block on each container. -/
theorem restore_stack (w : World) (cid : Nat) (prev : Option Nat) (c : Nat) :
    ((restore w cid prev).containers c).resolutionStack =
      if c = cid then ((w.containers c).resolutionStack).dropLast
      else (w.containers c).resolutionStack := by
  match prev with
  | some p => by_cases hc : c = cid <;> simp [restore, updateC, hc]
  | none => by_cases hc : c = cid <;> simp [restore, updateC, hc]

/-- Caching a singleton does not change any in-flight path. -/
theorem cacheIfSingleton2_stack (b : Binding2) (cid : Nat) (t : Token)
    (i : Instance) (w : World) (c : Nat) :
    ((cacheIfSingleton2 b cid t i w).containers c).resolutionStack =
      (w.containers c).resolutionStack := by
  unfold cacheIfSingleton2
  split
  · by_cases hc : c = cid <;> simp [updateC, hc]
  · rfl

theorem bumpHeap2_stack (w : World) (c : Nat) :
    ((bumpHeap2 w).containers c).resolutionStack = (w.containers c).resolutionStack := rfl

/-- Every container's in-flight path is restored by `resolve2` / `runGets`,
whether resolution succeeds or fails. -/
theorem stacks_inv2 : ∀ fuel : Nat,
    (∀ w cid t out w', resolve2 fuel w cid t = some (out, w') →
      ∀ c, ((w'.containers c).resolutionStack = (w.containers c).resolutionStack)) ∧
    (∀ w l out w', runGets fuel w l = some (out, w') →
      ∀ c, ((w'.containers c).resolutionStack = (w.containers c).resolutionStack)) := by
  intro fuel
  induction fuel with
  | zero =>
    constructor
    · intro w cid t out w' h
      simp [resolve2] at h
    · intro w l out w' h c
      match l with
      | [] =>
        simp only [runGets, Option.some.injEq, Prod.mk.injEq] at h
        obtain ⟨-, rfl⟩ := h
        rfl
      | _ :: _ => simp [runGets] at h
  | succ fuel ih =>
    obtain ⟨ihr, ihg⟩ := ih
    constructor
    · intro w cid t out w' h c
      simp only [resolve2] at h
      split at h
      · simp only [Option.some.injEq, Prod.mk.injEq] at h
        obtain ⟨-, rfl⟩ := h
        rfl
      · split at h
        · simp only [Option.some.injEq, Prod.mk.injEq] at h
          obtain ⟨-, rfl⟩ := h
          rfl
        · split at h
          · simp only [Option.some.injEq, Prod.mk.injEq] at h
            obtain ⟨-, rfl⟩ := h
            rfl
          · -- construction path: push on cid, run the body, pop on cid
            split at h
            · cases h
            case h_2 e w3 hgets =>
              simp only [Option.some.injEq, Prod.mk.injEq] at h
              obtain ⟨-, rfl⟩ := h
              have h3 : ∀ c', (w3.containers c').resolutionStack =
                  (if c' = cid then (w.containers c').resolutionStack ++ [t]
                   else (w.containers c').resolutionStack) := by
                intro c'
                rw [ihg _ _ _ _ hgets c']
                by_cases hc : c' = cid <;> simp [updateC, hc]
              rw [restore_stack, h3 c]
              by_cases hc : c = cid <;> simp [hc]
            case h_3 fetched w3 hgets =>
              have h3 : ∀ c', (w3.containers c').resolutionStack =
                  (if c' = cid then (w.containers c').resolutionStack ++ [t]
                   else (w.containers c').resolutionStack) := by
                intro c'
                rw [ihg _ _ _ _ hgets c']
                by_cases hc : c' = cid <;> simp [updateC, hc]
              split at h
              · simp only [Option.some.injEq, Prod.mk.injEq] at h
                obtain ⟨-, rfl⟩ := h
                rw [restore_stack, h3 c]
                by_cases hc : c = cid <;> simp [hc]
              · simp only [Option.some.injEq, Prod.mk.injEq] at h
                obtain ⟨-, rfl⟩ := h
                rw [restore_stack, cacheIfSingleton2_stack, bumpHeap2_stack, h3 c]
                by_cases hc : c = cid <;> simp [hc]
    · intro w l out w' h c
      match l with
      | [] =>
        simp only [runGets, Option.some.injEq, Prod.mk.injEq] at h
        obtain ⟨-, rfl⟩ := h
        rfl
      | t :: rest =>
        simp only [runGets] at h
        split at h
        · simp only [Option.some.injEq, Prod.mk.injEq] at h
          obtain ⟨-, rfl⟩ := h
          rfl
        · split at h
          · cases h
          case h_2 e wm hres =>
            simp only [Option.some.injEq, Prod.mk.injEq] at h
            obtain ⟨-, rfl⟩ := h
            exact ihr _ _ _ _ _ hres c
          case h_3 inst wm hres =>
            split at h
            · cases h
            case h_2 e wn hrest =>
              simp only [Option.some.injEq, Prod.mk.injEq] at h
              obtain ⟨-, rfl⟩ := h
              rw [ihg _ _ _ _ hrest c, ihr _ _ _ _ _ hres c]
            case h_3 insts wn hrest =>
              simp only [Option.some.injEq, Prod.mk.injEq] at h
              obtain ⟨-, rfl⟩ := h
              rw [ihg _ _ _ _ hrest c, ihr _ _ _ _ _ hres c]

theorem restore_active_none (w : World) (cid : Nat) :
    (restore w cid none).active = w.active := rfl

theorem cacheIfSingleton2_active (b : Binding2) (cid : Nat) (t : Token)
    (i : Instance) (w : World) : (cacheIfSingleton2 b cid t i w).active = w.active := by
  unfold cacheIfSingleton2
  split <;> rfl

/-- When no container was active and `resolve2` reaches the construction
phase (registered binding, no cycle, no cached singleton), the resolving
container installs itself and — since the saved previous pointer is `null` —
remains the active container afterwards, on success and on failure alike. -/
theorem resolve2_installs {fuel : Nat} {w : World} {cid : Nat} {t : Token}
    {out : Except ContainerError Instance} {w' : World} {b : Binding2}
    (hnone : w.active = none)
    (hb : (w.containers cid).bindings.lookup t.symbol = some b)
    (hcyc : ((w.containers cid).resolutionStack.any (fun x => x.symbol == t.symbol)) = false)
    (hnc : ¬(b.lifecycle = Lifecycle.Singleton
      ∧ ((w.containers cid).singletons.lookup t.symbol).isSome = true))
    (h : resolve2 fuel w cid t = some (out, w')) :
    w'.active = some cid := by
  match fuel with
  | 0 => simp [resolve2] at h
  | fuel + 1 =>
    simp only [resolve2, hb, hcyc, Bool.false_eq_true, if_false, hnone] at h
    rw [if_neg hnc] at h
    have hw2 : (updateC { w with active := some cid } cid
        (fun cs => { cs with resolutionStack := cs.resolutionStack ++ [t] })).active
        = some cid := rfl
    split at h
    · cases h
    case h_2 e w3 hgets =>
      simp only [Option.some.injEq, Prod.mk.injEq] at h
      obtain ⟨-, rfl⟩ := h
      rw [restore_active_none]
      exact runGets_active _ _ _ _ _ hgets cid hw2
    case h_3 fetched w3 hgets =>
      have h3 : w3.active = some cid := runGets_active _ _ _ _ _ hgets cid hw2
      split at h
      · simp only [Option.some.injEq, Prod.mk.injEq] at h
        obtain ⟨-, rfl⟩ := h
        rw [restore_active_none]
        exact h3
      · simp only [Option.some.injEq, Prod.mk.injEq] at h
        obtain ⟨-, rfl⟩ := h
        rw [restore_active_none, cacheIfSingleton2_active]
        exact h3

end Ctx

/-! ## Concrete scenarios used by witnesses and counterexamples -/

/-- A token used by concrete scenarios. -/
def wTok : Token := ⟨1, "Service"⟩

/-- A dependency-free Singleton implementation. -/
def wCtorS : Ctor := ⟨10, "ServiceImpl", true, some Lifecycle.Singleton, [], none⟩

/-- A dependency-free Transient implementation. -/
def wCtorT : Ctor := ⟨12, "TransientImpl", true, some Lifecycle.Transient, [], none⟩

/-- One Singleton binding for `wTok`, nothing resolved yet. -/
def wSt : ContainerState :=
  { bindings := [(1, ⟨wCtorS, Lifecycle.Singleton, wTok⟩)], singletons := [],
    resolutionStack := [], typeToTokenMap := [(10, wTok)], nextInstId := 0 }

/-- `wSt` after the first successful `resolve wTok`. -/
def wSt2 : ContainerState :=
  { bindings := [(1, ⟨wCtorS, Lifecycle.Singleton, wTok⟩)],
    singletons := [(1, ⟨10, 0, []⟩)],
    resolutionStack := [], typeToTokenMap := [(10, wTok)], nextInstId := 1 }

/-- One Transient binding for `wTok`, nothing resolved yet. -/
def wStT : ContainerState :=
  { bindings := [(1, ⟨wCtorT, Lifecycle.Transient, wTok⟩)], singletons := [],
    resolutionStack := [], typeToTokenMap := [(12, wTok)], nextInstId := 0 }

/-- Token `A` of the missing-dependency scenario. -/
def c8A : Token := ⟨2, "A"⟩

/-- Token `B` of the missing-dependency scenario (never registered). -/
def c8B : Token := ⟨3, "B"⟩

/-- `A -> AImpl` registered with a declared dependency on the unregistered
token `B`. -/
def c8St : ContainerState :=
  { bindings := [(2, ⟨⟨20, "AImpl", true, some Lifecycle.Transient, [some c8B], none⟩,
      Lifecycle.Transient, c8A⟩)],
    singletons := [], resolutionStack := [], typeToTokenMap := [(20, c8A)],
    nextInstId := 0 }

/-- An ambient-context world: container `5` was set active, container `0`
holds a dependency-free Transient binding for `wTok`. -/
def w9 : Ctx.World :=
  { containers := fun _ =>
      { bindings := [(1, ⟨⟨10, "ServiceImpl", true, some Lifecycle.Transient, [], none⟩,
          Lifecycle.Transient, wTok⟩)],
        singletons := [], resolutionStack := [] },
    active := some 5, nextInstId := 0 }

/-- An ambient-context world with no active container and container `0`
holding the same Transient binding. -/
def w10 : Ctx.World :=
  { containers := w9.containers, active := none, nextInstId := 0 }

/-- An ambient-context world with no active container and no bindings. -/
def w10e : Ctx.World :=
  { containers := fun _ => { bindings := [], singletons := [], resolutionStack := [] },
    active := none, nextInstId := 0 }

/-! ## Claims -/

/-- C4: in both container implementations, every `resolve` call that returns
(successfully or with an error) restores the in-flight resolution path to
exactly what it was at entry — the token pushed before construction is popped
again on every exit path — so a top-level call that starts with an empty path
ends with an empty path, and a failed resolution never poisons the path for
subsequent unrelated calls. -/
theorem claim_C4 :
    (∀ (fuel : Nat) (st : ContainerState) (t : Token)
        (out : Except ContainerError Instance) (st' : ContainerState),
      resolve fuel st t = some (out, st') →
        st'.resolutionStack = st.resolutionStack) ∧
    (∀ (fuel : Nat) (w : Ctx.World) (cid : Nat) (t : Token)
        (out : Except ContainerError Instance) (w' : Ctx.World),
      Ctx.resolve2 fuel w cid t = some (out, w') →
        ∀ c, (w'.containers c).resolutionStack = (w.containers c).resolutionStack) := by
  constructor
  · intro fuel st t out st' h
    exact resolve_stack_eq h
  · intro fuel w cid t out w' h c
    exact (Ctx.stacks_inv2 fuel).1 w cid t out w' h c

theorem claim_C4_witness :
    wSt2.resolutionStack = wSt.resolutionStack ∧
    (w9.containers 0).resolutionStack = (w9.containers 0).resolutionStack := by
  constructor
  · exact claim_C4.1 2 wSt wTok (.ok ⟨10, 0, []⟩) wSt2 (by decide)
  · exact claim_C4.2 1 w9 0 ⟨99, "Missing"⟩ (.error (.dependencyNotFound ⟨99, "Missing"⟩))
      w9 rfl 0

/-- C5: for a Singleton-bound token, two successful `resolve` calls on the
same registry return the identical instance: the first call leaves the
instance in the singleton cache keyed by the token's symbol, and the second
returns exactly that cached instance. -/
theorem claim_C5 (fuel fuel' : Nat) (st : ContainerState) (t : Token) (b : Binding)
    (i i' : Instance) (st₁ st₂ : ContainerState)
    (hb : st.bindings.lookup t.symbol = some b)
    (hsing : b.lifecycle = Lifecycle.Singleton)
    (h1 : resolve fuel st t = some (.ok i, st₁))
    (h2 : resolve fuel' st₁ t = some (.ok i', st₂)) :
    i' = i ∧ st₁.singletons.lookup t.symbol = some i := by
  have hcached : st₁.singletons.lookup t.symbol = some i := by
    obtain ⟨b', hb', hcases⟩ := resolve_ok_inv h1
    rw [hb] at hb'
    injection hb' with hb'
    subst hb'
    rcases hcases with ⟨hc, rfl⟩ | ⟨-, -, -, -, hcache⟩
    · unfold cachedLookup at hc
      rw [if_pos hsing] at hc
      exact hc
    · exact hcache hsing
  have hb1 : st₁.bindings.lookup t.symbol = some b := by
    rw [resolve_bindings_eq h1]
    exact hb
  exact ⟨(resolve_ok_cached hb1 hsing hcached h2).1, hcached⟩

theorem claim_C5_witness :
    (⟨10, 0, []⟩ : Instance) = ⟨10, 0, []⟩ ∧
      wSt2.singletons.lookup wTok.symbol = some ⟨10, 0, []⟩ :=
  claim_C5 2 2 wSt wTok ⟨wCtorS, Lifecycle.Singleton, wTok⟩ ⟨10, 0, []⟩ ⟨10, 0, []⟩
    wSt2 wSt2 (by decide) (by decide) (by decide) (by decide)

/-- C9: the context-aware `resolve` upholds the ambient save/restore
discipline: whenever some container `s` was active at entry, `s` is the
active container again after the call returns, whether resolution succeeded
or failed (the construction path saves the previous pointer and its `finally`
block restores it; the early-return paths never touch it). -/
theorem claim_C9 (fuel : Nat) (w : Ctx.World) (cid : Nat) (t : Token)
    (out : Except ContainerError Instance) (w' : Ctx.World) (s : Nat)
    (hs : w.active = some s)
    (h : Ctx.resolve2 fuel w cid t = some (out, w')) :
    w'.active = some s :=
  Ctx.resolve2_active h hs

theorem claim_C9_witness :
    w9.active = some 5 ∧
      (Ctx.resolve2 2 w9 0 wTok).map (fun p => p.2.active) = some (some 5) := by
  refine ⟨rfl, ?_⟩
  have hsome : (Ctx.resolve2 2 w9 0 wTok).isSome = true := by decide
  obtain ⟨⟨out, w'⟩, hr⟩ := Option.isSome_iff_exists.mp hsome
  rw [hr, Option.map_some']
  exact congrArg some (claim_C9 2 w9 0 wTok out w' 5 rfl hr)

/-- C6: for a Transient-bound token, two successful `resolve` calls return
distinct instances (their allocation identities differ), and no `resolve`
call of any token ever creates a singleton-cache entry under a symbol whose
binding is Transient. -/
theorem claim_C6 :
    (∀ (fuel fuel' : Nat) (st : ContainerState) (t : Token) (b : Binding)
        (i i' : Instance) (st₁ st₂ : ContainerState),
      st.bindings.lookup t.symbol = some b → b.lifecycle = Lifecycle.Transient →
      resolve fuel st t = some (.ok i, st₁) →
      resolve fuel' st₁ t = some (.ok i', st₂) → i' ≠ i) ∧
    (∀ (fuel : Nat) (st : ContainerState) (t : Token)
        (out : Except ContainerError Instance) (st' : ContainerState) (sym : Nat)
        (b : Binding),
      st.bindings.lookup sym = some b → b.lifecycle = Lifecycle.Transient →
      st.singletons.lookup sym = none →
      resolve fuel st t = some (out, st') → st'.singletons.lookup sym = none) := by
  constructor
  · intro fuel fuel' st t b i i' st₁ st₂ hb htr h1 h2
    have hnc : cachedLookup b st t = none := by
      unfold cachedLookup
      rw [if_neg (by rw [htr]; intro hc; cases hc)]
    obtain ⟨-, -, hlt, -⟩ := resolve_ok_fresh hb hnc h1
    have hb1 : st₁.bindings.lookup t.symbol = some b := by
      rw [resolve_bindings_eq h1]
      exact hb
    have hnc1 : cachedLookup b st₁ t = none := by
      unfold cachedLookup
      rw [if_neg (by rw [htr]; intro hc; cases hc)]
    obtain ⟨-, hge, -, -⟩ := resolve_ok_fresh hb1 hnc1 h2
    intro hEq
    rw [hEq] at hge
    omega
  · intro fuel st t out st' sym b hb htr hnone h
    rw [(resolve_stateInv h).2.2.2.2 sym b hb htr]
    exact hnone

theorem claim_C6_witness :
    ((⟨12, 1, []⟩ : Instance) ≠ ⟨12, 0, []⟩) ∧
      ((resolve 2 wStT wTok).map
        (fun p => p.2.singletons.lookup wTok.symbol) = some none) := by
  constructor
  · exact claim_C6.1 2 2 wStT wTok ⟨wCtorT, Lifecycle.Transient, wTok⟩
      ⟨12, 0, []⟩ ⟨12, 1, []⟩ (bumpHeap wStT) (bumpHeap (bumpHeap wStT))
      (by decide) (by decide) (by decide) (by decide)
  · have h := claim_C6.2 2 wStT wTok (.ok ⟨12, 0, []⟩) (bumpHeap wStT) wTok.symbol
      ⟨wCtorT, Lifecycle.Transient, wTok⟩ (by decide) (by decide) (by decide) (by decide)
    rw [show resolve 2 wStT wTok = some (.ok ⟨12, 0, []⟩, bumpHeap wStT) by decide,
      Option.map_some']
    rw [h]

/-- C7: `clear()` empties the singleton cache and the in-flight path while
preserving all bindings (`isRegistered` is unchanged), so a Singleton token
successfully resolved before and after `clear()` yields two distinct
instances; `reset()` additionally empties the bindings, making
`isRegistered` false for every token. -/
theorem claim_C7 :
    (∀ st : ContainerState, (clear st).singletons = [] ∧
      (clear st).resolutionStack = [] ∧ (clear st).bindings = st.bindings) ∧
    (∀ (st : ContainerState) (t : Token), isRegistered (clear st) t = isRegistered st t) ∧
    (∀ (st : ContainerState) (t : Token), isRegistered (reset st) t = false) ∧
    (∀ (fuel fuel' : Nat) (st : ContainerState) (t : Token) (b : Binding)
        (i i' : Instance) (st₁ st₂ : ContainerState),
      CacheBounded st →
      st.bindings.lookup t.symbol = some b →
      resolve fuel st t = some (.ok i, st₁) →
      resolve fuel' (clear st₁) t = some (.ok i', st₂) →
      i' ≠ i ∧ isRegistered st₁ t = true) := by
  refine ⟨fun st => ⟨rfl, rfl, rfl⟩, fun st t => rfl, fun st t => rfl, ?_⟩
  intro fuel fuel' st t b i i' st₁ st₂ hcb hb h1 h2
  have hlt : i.instId < st₁.nextInstId := resolve_ok_instId_lt hcb h1
  have hbc : (clear st₁).bindings.lookup t.symbol = some b := by
    show st₁.bindings.lookup t.symbol = some b
    rw [resolve_bindings_eq h1]
    exact hb
  have hnc : cachedLookup b (clear st₁) t = none :=
    cachedLookup_none b rfl
  obtain ⟨-, hge, -, -⟩ := resolve_ok_fresh hbc hnc h2
  constructor
  · intro hEq
    rw [hEq] at hge
    have : (clear st₁).nextInstId = st₁.nextInstId := rfl
    omega
  · show (st₁.bindings.lookup t.symbol).isSome = true
    rw [resolve_bindings_eq h1, hb]
    rfl

theorem claim_C7_witness :
    ((⟨10, 1, []⟩ : Instance) ≠ ⟨10, 0, []⟩) ∧ isRegistered wSt2 wTok = true := by
  have h := claim_C7.2.2.2 2 2 wSt wTok ⟨wCtorS, Lifecycle.Singleton, wTok⟩
    ⟨10, 0, []⟩ ⟨10, 1, []⟩ wSt2
    { bindings := wSt2.bindings, singletons := [(1, ⟨10, 1, []⟩)],
      resolutionStack := [], typeToTokenMap := wSt2.typeToTokenMap, nextInstId := 2 }
    (fun sym i hsi => by cases hsi) (by decide) (by decide) (by decide)
  exact h

/-- C8: `resolve` of a token with no binding fails with `DependencyNotFound`
carrying that token and returns the state completely unchanged (nothing is
constructed); and if a registered token `A` declares a dependency on an
unregistered token `B`, `resolve A` fails with `DependencyNotFound` carrying
`B` — the error's token (and hence the label in its message) is `B`'s, not
`A`'s. -/
theorem claim_C8 :
    (∀ (fuel : Nat) (st : ContainerState) (t : Token),
      st.bindings.lookup t.symbol = none →
      resolve (fuel + 1) st t = some (.error (.dependencyNotFound t), st)) ∧
    (∀ (fuel : Nat) (st : ContainerState) (A B : Token) (bA : Binding),
      st.bindings.lookup A.symbol = some bA →
      bA.implementation.injectTokens = [some B] →
      st.resolutionStack = [] →
      st.singletons.lookup A.symbol = none →
      st.bindings.lookup B.symbol = none →
      (resolve (fuel + 2) st A).map (fun p => p.1)
        = some (.error (.dependencyNotFound B))) := by
  constructor
  · intro fuel st t h
    simp [resolve, h]
  · intro fuel st A B bA hbA hdep hstack hcache hB
    have hc : cachedLookup bA st A = none := cachedLookup_none bA hcache
    simp [resolve, resolveDeps, hbA, hdep, hstack, hc, pushStack, hB]

theorem claim_C8_witness :
    resolve 1 emptyState wTok = some (.error (.dependencyNotFound wTok), emptyState) ∧
    (resolve 2 c8St c8A).map (fun p => p.1)
      = some (.error (.dependencyNotFound c8B)) := by
  constructor
  · exact claim_C8.1 0 emptyState wTok (by decide)
  · exact claim_C8.2 0 c8St c8A c8B ⟨⟨20, "AImpl", true, some Lifecycle.Transient,
      [some c8B], none⟩, Lifecycle.Transient, c8A⟩
      (by decide) (by decide) (by decide) (by decide) (by decide)

/-- Renaming of token identities: keeps every label, replaces the symbol. -/
def renameTok (f : Nat → Nat) (t : Token) : Token :=
  ⟨f t.symbol, t.description⟩

/-- Renaming of token identities inside an error value. -/
def renameErr (f : Nat → Nat) : ContainerError → ContainerError
  | .dependencyNotFound t => .dependencyNotFound (renameTok f t)
  | .circularDependency c => .circularDependency (c.map (renameTok f))
  | .invalidConstructor t m => .invalidConstructor (renameTok f t) m
  | .notInjectable n => .notInjectable n
  | .noActiveContainer => .noActiveContainer

/-- C2 (amended): every error message is invariant under arbitrary renaming
of token identities — the message is a function of the tokens' human-readable
labels alone and carries no information about any symbol's identity.  (The
`DependencyNotFound` message does textually embed `token.symbol.toString()`,
but in JavaScript that rendering is `"Symbol(label)"`, itself determined by
the label; see the counterexample to the claim as stated.) -/
theorem claim_C2 (e : ContainerError) (f : Nat → Nat) :
    errMessage (renameErr f e) = errMessage e := by
  cases e <;>
    simp [renameErr, errMessage, dependencyNotFoundMessage, symbolToString,
      circularDependencyMessage, invalidConstructorMessage, renameTok,
      List.map_map, Function.comp_def]

/-- C2 counterexample: the claim says no failure message includes any
representation of the offending token's symbol, but the message of
`DependencyNotFoundError` for the token labelled `Logger` contains the
symbol's string rendering `token.symbol.toString() = "Symbol(Logger)"` as a
substring — the message is not the label alone. -/
theorem claim_C2_counterexample :
    dependencyNotFoundMessage ⟨7, "Logger"⟩
        = "Dependency not found: Logger (Symbol(Logger))" ∧
      symbolToString ⟨7, "Logger"⟩ = "Symbol(Logger)" ∧
      (symbolToString ⟨7, "Logger"⟩).toList <:+:
        (dependencyNotFoundMessage ⟨7, "Logger"⟩).toList := by
  refine ⟨rfl, rfl, by decide⟩

/-- C10 (amended): in the ambient-context container, when no container was
active at the start of `resolve` and the call reaches the construction phase
(the token is registered, not already in flight, and not served from the
singleton cache), the resolving container installs itself via
`setContainer(this)` and — because the saved previous pointer was `null`,
which the `finally` block does not restore — remains the active container
after the call completes, on success and on failure alike.  If instead the
call returns early (unknown token, cycle error, or cached singleton), the
no-active-container state persists; see the counterexample. -/
theorem claim_C10 (fuel : Nat) (w : Ctx.World) (cid : Nat) (t : Token)
    (out : Except ContainerError Instance) (w' : Ctx.World) (b : Ctx.Binding2)
    (hnone : w.active = none)
    (hb : (w.containers cid).bindings.lookup t.symbol = some b)
    (hcyc : ((w.containers cid).resolutionStack.any (fun x => x.symbol == t.symbol)) = false)
    (hnc : ¬(b.lifecycle = Lifecycle.Singleton
      ∧ ((w.containers cid).singletons.lookup t.symbol).isSome = true))
    (h : Ctx.resolve2 fuel w cid t = some (out, w')) :
    w'.active = some cid :=
  Ctx.resolve2_installs hnone hb hcyc hnc h

theorem claim_C10_witness :
    w10.active = none ∧
      (Ctx.resolve2 2 w10 0 wTok).map (fun p => p.2.active) = some (some 0) := by
  refine ⟨rfl, ?_⟩
  have hsome : (Ctx.resolve2 2 w10 0 wTok).isSome = true := by decide
  obtain ⟨⟨out, w'⟩, hr⟩ := Option.isSome_iff_exists.mp hsome
  rw [hr, Option.map_some']
  exact congrArg some
    (claim_C10 2 w10 0 wTok out w'
      ⟨⟨10, "ServiceImpl", true, some Lifecycle.Transient, [], none⟩,
        Lifecycle.Transient, wTok⟩
      rfl (by decide) (by decide) (by decide) hr)

/-- C10 counterexample: with no active container, `resolve` of an
unregistered token completes (with `DependencyNotFound`) before ever calling
`setContainer(this)`, so afterwards there is still *no* active container —
contradicting the claim that after any completed `resolve` call the
resolving container remains installed. -/
theorem claim_C10_counterexample :
    (Ctx.resolve2 1 w10e 0 wTok).map (fun p => (p.1, p.2.active))
      = some (.error (.dependencyNotFound wTok), none) := rfl

/-- One direction of the two-token cycle scenario: with `A -> [B]` and
`B -> [A]` both registered, nothing cached and nothing in flight,
`resolve A` reports the chain `[A, B, A]` and the cache slots of `A` and `B`
are still empty afterwards. -/
theorem cycle_aux (fuel : Nat) (st : ContainerState) (A B : Token) (bA bB : Binding)
    (hAB : A.symbol ≠ B.symbol)
    (hbA : st.bindings.lookup A.symbol = some bA)
    (hbB : st.bindings.lookup B.symbol = some bB)
    (hdA : bA.implementation.injectTokens = [some B])
    (hdB : bB.implementation.injectTokens = [some A])
    (hstack : st.resolutionStack = [])
    (hsA : st.singletons.lookup A.symbol = none)
    (hsB : st.singletons.lookup B.symbol = none) :
    (resolve (fuel + 5) st A).map
        (fun p => (p.1, p.2.singletons.lookup A.symbol, p.2.singletons.lookup B.symbol))
      = some (.error (.circularDependency [A, B, A]), none, none) := by
  have e1 : (A.symbol == B.symbol) = false := by simp [hAB]
  have e2 : (B.symbol == A.symbol) = false := by simp [Ne.symm hAB]
  have hcA : cachedLookup bA st A = none := cachedLookup_none bA hsA
  simp [resolve, resolveDeps, hbA, hbB, hdA, hdB, hstack, hcA, hsA, hsB,
    pushStack, popStack, cachedLookup, e1, e2]

/-- C3: in any registry where token `A`'s producer declares a dependency on
`B` and `B`'s declares a dependency on `A` (both registered, neither cached,
nothing in flight), `resolve A` fails with `CircularDependency` whose chain
is exactly `[A, B, A]`, `resolve B` reports `[B, A, B]`, and in both cases
the singleton cache still has no entry for `A` or `B` after the failure. -/
theorem claim_C3 (fuel : Nat) (st : ContainerState) (A B : Token) (bA bB : Binding)
    (hAB : A.symbol ≠ B.symbol)
    (hbA : st.bindings.lookup A.symbol = some bA)
    (hbB : st.bindings.lookup B.symbol = some bB)
    (hdA : bA.implementation.injectTokens = [some B])
    (hdB : bB.implementation.injectTokens = [some A])
    (hstack : st.resolutionStack = [])
    (hsA : st.singletons.lookup A.symbol = none)
    (hsB : st.singletons.lookup B.symbol = none) :
    (resolve (fuel + 5) st A).map
        (fun p => (p.1, p.2.singletons.lookup A.symbol, p.2.singletons.lookup B.symbol))
      = some (.error (.circularDependency [A, B, A]), none, none) ∧
    (resolve (fuel + 5) st B).map
        (fun p => (p.1, p.2.singletons.lookup B.symbol, p.2.singletons.lookup A.symbol))
      = some (.error (.circularDependency [B, A, B]), none, none) :=
  ⟨cycle_aux fuel st A B bA bB hAB hbA hbB hdA hdB hstack hsA hsB,
   cycle_aux fuel st B A bB bA (Ne.symm hAB) hbB hbA hdB hdA hstack hsB hsA⟩

/-- The registry of the concrete cycle scenario: `A -> AImpl` needing `B`,
`B -> BImpl` needing `A`. -/
def cycSt : ContainerState :=
  { bindings :=
      [(2, ⟨⟨20, "AImpl", true, some Lifecycle.Singleton, [some c8B], none⟩,
          Lifecycle.Singleton, c8A⟩),
       (3, ⟨⟨21, "BImpl", true, some Lifecycle.Singleton, [some c8A], none⟩,
          Lifecycle.Singleton, c8B⟩)],
    singletons := [], resolutionStack := [], typeToTokenMap := [(20, c8A), (21, c8B)],
    nextInstId := 0 }

theorem claim_C3_witness :
    (resolve 5 cycSt c8A).map
        (fun p => (p.1, p.2.singletons.lookup c8A.symbol, p.2.singletons.lookup c8B.symbol))
      = some (.error (.circularDependency [c8A, c8B, c8A]), none, none) ∧
    (resolve 5 cycSt c8B).map
        (fun p => (p.1, p.2.singletons.lookup c8B.symbol, p.2.singletons.lookup c8A.symbol))
      = some (.error (.circularDependency [c8B, c8A, c8B]), none, none) :=
  claim_C3 0 cycSt c8A c8B
    ⟨⟨20, "AImpl", true, some Lifecycle.Singleton, [some c8B], none⟩,
      Lifecycle.Singleton, c8A⟩
    ⟨⟨21, "BImpl", true, some Lifecycle.Singleton, [some c8A], none⟩,
      Lifecycle.Singleton, c8B⟩
    (by decide) (by decide) (by decide) (by decide) (by decide) (by decide)
    (by decide) (by decide)

/-- Inversion of a successful `register`: the implementation was injectable
and the only state change is overwriting the binding and the type map entry —
in particular the singleton cache is NOT touched. -/
theorem register_ok_inv {st : ContainerState} {t : Token} {c : Ctor}
    {st' : ContainerState} (h : register st t c = .ok st') :
    c.injectable = true ∧
    st' = { st with
            bindings := mset st.bindings t.symbol ⟨c, c.lifecycle?.getD Lifecycle.Transient, t⟩,
            typeToTokenMap := mset st.typeToTokenMap c.ctorId t } := by
  unfold register at h
  split at h
  · cases h
  case isFalse hc =>
    refine ⟨by simpa using hc, ?_⟩
    injection h with h
    exact h.symm

/-- C1 (amended): `register(token, Y)` after `register(token, X)` overwrites
the binding, so the registry maps the token to `Y` and any instance a later
`resolve` *constructs* is produced by `Y`; but re-registration does not
invalidate the singleton cache: if `X` was Singleton-bound and an `X`-instance
was cached by a `resolve` before the re-registration, and `Y` is also
Singleton-bound, then `resolve(token)` after re-registration returns the
stale cached `X`-instance — not an instance of `Y` — until `clear()` or
`reset()`. -/
theorem claim_C1 :
    (∀ (st : ContainerState) (t : Token) (c : Ctor) (st' : ContainerState),
      register st t c = .ok st' →
        st'.bindings.lookup t.symbol
          = some ⟨c, c.lifecycle?.getD Lifecycle.Transient, t⟩) ∧
    (∀ (fuel fuel' : Nat) (st st₁ st₂ st₃ st₄ : ContainerState) (t : Token)
        (X Y : Ctor) (i i' : Instance),
      X.lifecycle? = some Lifecycle.Singleton →
      Y.lifecycle? = some Lifecycle.Singleton →
      st.singletons.lookup t.symbol = none →
      register st t X = .ok st₁ →
      resolve fuel st₁ t = some (.ok i, st₂) →
      register st₂ t Y = .ok st₃ →
      resolve fuel' st₃ t = some (.ok i', st₄) →
      i' = i ∧ i.ctorId = X.ctorId) := by
  constructor
  · intro st t c st' h
    obtain ⟨-, rfl⟩ := register_ok_inv h
    exact mset_lookup_self _ _ _
  · intro fuel fuel' st st₁ st₂ st₃ st₄ t X Y i i' hX hY hcache h1 h2 h3 h4
    obtain ⟨-, rfl⟩ := register_ok_inv h1
    have hb1 : ({ st with
        bindings := mset st.bindings t.symbol ⟨X, X.lifecycle?.getD Lifecycle.Transient, t⟩,
        typeToTokenMap := mset st.typeToTokenMap X.ctorId t } : ContainerState).bindings.lookup
          t.symbol = some ⟨X, Lifecycle.Singleton, t⟩ := by
      rw [hX]
      exact mset_lookup_self _ _ _
    obtain ⟨hctor, -, -, hcached⟩ :=
      resolve_ok_fresh hb1 (cachedLookup_none _ hcache) h2
    have hsi : st₂.singletons.lookup t.symbol = some i := hcached rfl
    obtain ⟨-, rfl⟩ := register_ok_inv h3
    have hb3 : ({ st₂ with
        bindings := mset st₂.bindings t.symbol ⟨Y, Y.lifecycle?.getD Lifecycle.Transient, t⟩,
        typeToTokenMap := mset st₂.typeToTokenMap Y.ctorId t } : ContainerState).bindings.lookup
          t.symbol = some ⟨Y, Lifecycle.Singleton, t⟩ := by
      rw [hY]
      exact mset_lookup_self _ _ _
    exact ⟨(resolve_ok_cached hb3 rfl hsi h4).1, hctor⟩

/-- The second producer registered for `wTok` in the re-registration
scenario. -/
def yCtor : Ctor := ⟨11, "YImpl", true, some Lifecycle.Singleton, [], none⟩

/-- `register X; resolve; register Y; resolve` run from a fresh container. -/
def c1Pipeline : Option (Except ContainerError Instance × ContainerState) :=
  match register emptyState wTok wCtorS with
  | .error _ => none
  | .ok st1 =>
    match resolve 2 st1 wTok with
    | none => none
    | some (_, st2) =>
      match register st2 wTok yCtor with
      | .error _ => none
      | .ok st3 => resolve 2 st3 wTok

/-- C1 counterexample: after `register(wTok, X)` (X Singleton), a `resolve`
(caching an `X`-instance) and `register(wTok, Y)` (Y Singleton), the next
`resolve(wTok)` returns the instance with constructor id `10 = X.ctorId` and
allocation id `0` — the very instance cached before re-registration — and
not an instance of `Y` (`ctorId 11`), contradicting the claim that after
re-registration `resolve` uses `Y` exclusively with no trace of `X`. -/
theorem claim_C1_counterexample :
    (c1Pipeline.map fun p => p.1) = some (.ok ⟨10, 0, []⟩) ∧
      wCtorS.ctorId = 10 ∧ yCtor.ctorId = 11 := by
  refine ⟨by decide, rfl, rfl⟩

/-- `wSt2` after re-registering `wTok` to `yCtor`: the binding now maps to
`Y`, the stale cached `X`-instance is still present. -/
def c1St3 : ContainerState :=
  { bindings := [(1, ⟨yCtor, Lifecycle.Singleton, wTok⟩)],
    singletons := [(1, ⟨10, 0, []⟩)],
    resolutionStack := [], typeToTokenMap := [(11, wTok), (10, wTok)],
    nextInstId := 1 }

theorem claim_C1_witness :
    wSt.bindings.lookup wTok.symbol = some ⟨wCtorS, Lifecycle.Singleton, wTok⟩ ∧
      (⟨10, 0, []⟩ : Instance) = ⟨10, 0, []⟩ ∧
      (⟨10, 0, []⟩ : Instance).ctorId = wCtorS.ctorId := by
  refine ⟨?_, ?_⟩
  · have h := claim_C1.1 emptyState wTok wCtorS wSt (by decide)
    simpa using h
  · exact claim_C1.2 2 2 emptyState wSt wSt2 c1St3 c1St3 wTok wCtorS yCtor
      ⟨10, 0, []⟩ ⟨10, 0, []⟩ (by decide) (by decide) (by decide) (by decide)
      (by decide) (by decide) (by decide)

end DI
